import Mathlib

/-!
Verification of the schema-generation core of the `frappe_introspector`
repository (`src/app.py`): the field filter, the Frappe-field-to-OpenAPI
property mapper, the DocType schema assembler, the OpenAPI spec composer,
and the TypeScript interface emitter.

Python dictionaries are modelled as insertion-ordered association lists
inside a JSON-like value type; dictionary assignment (`d[k] = v`) keeps the
position of an existing key and replaces its value, as CPython does.
-/

namespace FrappeIntrospector

/-- JSON-like values, modelling the Python dict/list/str/int/bool values the
generator manipulates. -/
inductive Json where
  | str (s : String)
  | int (n : Int)
  | bool (b : Bool)
  | arr (xs : List Json)
  | obj (kvs : List (String × Json))

/-- Dictionary lookup on an association list (Python `d.get(k)`). -/
def lookup (kvs : List (String × Json)) (k : String) : Option Json :=
  match kvs with
  | [] => none
  | (k', v) :: rest => if k' = k then some v else lookup rest k

/-- Dictionary assignment `d[k] = v`: replace the value in place if the key
exists, otherwise append the new pair at the end (CPython insertion order). -/
def setKey (kvs : List (String × Json)) (k : String) (v : Json) : List (String × Json) :=
  match kvs with
  | [] => [(k, v)]
  | (k', v') :: rest => if k' = k then (k', v) :: rest else (k', v') :: setKey rest k v

/-- Lookup on a `Json.obj`; `none` on every other shape. -/
def Json.get? : Json → String → Option Json
  | .obj kvs, k => lookup kvs k
  | _, _ => none

/-- Assignment on a `Json.obj`; identity on every other shape. -/
def Json.set : Json → String → Json → Json
  | .obj kvs, k, v => .obj (setKey kvs k v)
  | j, _, _ => j

/-- Python `dict.update`: assign every pair of the right operand in order. -/
def Json.updateWith (j : Json) (kvs : List (String × Json)) : Json :=
  kvs.foldl (fun acc kv => acc.set kv.1 kv.2) j

/-- Python truthiness of a JSON value. -/
def Json.truthy : Json → Bool
  | .str s => s ≠ ""
  | .int n => n ≠ 0
  | .bool b => b
  | .arr xs => !xs.isEmpty
  | .obj kvs => !kvs.isEmpty

/-- A Frappe field definition: the keys of the raw field dict that the
generator reads.  `none` stands for an absent key (or a JSON null, which the
code never distinguishes from absence through `get` plus truthiness).
Boolean-like flags are modelled by their truthiness. -/
structure Field where
  fieldname : Option String := none
  fieldtype : Option String := none
  label : Option String := none
  options : Option String := none
  reqd : Bool := false
  read_only : Bool := false
  default : Option String := none

/-- Python truthiness of an optional string (`None` and `""` are falsy). -/
def truthy : Option String → Bool
  | none => false
  | some s => s ≠ ""

/-- Python `x in l` for an optional string against a list of strings
(`None in l` is `False` when `l` holds only strings). -/
def inList (o : Option String) (l : List String) : Bool :=
  match o with
  | some t => l.contains t
  | none => false

/-- Python whitespace characters recognised by `str.strip()` (ASCII range). -/
def pyWhitespace (c : Char) : Bool :=
  c = ' ' || c = '\t' || c = '\n' || c = '\r' || c = '\x0b' || c = '\x0c'

/-- Python `str.strip()`: drop leading and trailing whitespace. -/
def pyStrip (s : String) : String :=
  ⟨((s.data.dropWhile pyWhitespace).reverse.dropWhile pyWhitespace).reverse⟩

/-- Split a character list at every newline character (the pieces between
consecutive separators, Python `str.split` semantics for one separator). -/
def splitLines (cs : List Char) : List (List Char) :=
  match cs with
  | [] => [[]]
  | c :: rest =>
    let r := splitLines rest
    if c = '\n' then [] :: r
    else
      match r with
      | [] => [[c]]
      | line :: more => (c :: line) :: more

/-- Python `s.split("\n")`. -/
def pySplitNL (s : String) : List String :=
  (splitLines s.data).map (fun cs => ⟨cs⟩)

/-- The fixed `field_type_mapping` table of
`OpenAPIGenerator.map_frappe_field_to_openapi` (src/app.py lines 306-333). -/
def field_type_mapping : List (String × List (String × Json)) := [
  ("Data", [("type", .str "string")]),
  ("Small Text", [("type", .str "string")]),
  ("Long Text", [("type", .str "string")]),
  ("Text Editor", [("type", .str "string")]),
  ("Text", [("type", .str "string"), ("maxLength", .int 65535)]),
  ("Code", [("type", .str "string")]),
  ("Int", [("type", .str "integer")]),
  ("Float", [("type", .str "number"), ("format", .str "float")]),
  ("Currency", [("type", .str "number"), ("format", .str "float")]),
  ("Percent", [("type", .str "number"), ("format", .str "float")]),
  ("Check", [("type", .str "integer"), ("enum", .arr [.int 0, .int 1])]),
  ("Select", [("type", .str "string")]),
  ("Link", [("type", .str "string")]),
  ("Date", [("type", .str "string"), ("format", .str "date")]),
  ("Datetime", [("type", .str "string"), ("format", .str "date-time")]),
  ("Time", [("type", .str "string"), ("format", .str "time")]),
  ("Password", [("type", .str "string"), ("format", .str "password"), ("writeOnly", .bool true)]),
  ("Attach", [("type", .str "string"), ("format", .str "uri")]),
  ("Attach Image", [("type", .str "string"), ("format", .str "uri")]),
  ("Table", [("type", .str "array"), ("items", .obj [("type", .str "object")])]),
  ("JSON", [("type", .str "object")]),
  ("HTML", [("type", .str "string")]),
  ("Signature", [("type", .str "string")]),
  ("Color", [("type", .str "string"), ("pattern", .str "^#[0-9A-Fa-f]\x7b6\x7d$")]),
  ("Barcode", [("type", .str "string")]),
  ("Geolocation", [("type", .str "string")])]

/-- Lookup in the field-type table (Python `field_type_mapping.get(ft, d)`). -/
def tableGet (tbl : List (String × List (String × Json))) (k : String) :
    Option (List (String × Json)) :=
  match tbl with
  | [] => none
  | (k', v) :: rest => if k' = k then some v else tableGet rest k

/-- Stage 1 of `map_frappe_field_to_openapi` (src/app.py lines 293-301):
the initial descriptor dict — description, read-only flag, default value. -/
def mapBaseProps (field : Field) : Json :=
  let p : Json := .obj [("description", .str (field.label.getD (field.fieldname.getD "")))]
  let p := if field.read_only then p.set "readOnly" (.bool true) else p
  if truthy field.default then p.set "default" (.str (field.default.getD "")) else p

/-- Stage 2 of `map_frappe_field_to_openapi` (src/app.py lines 303-335):
update with the type-table entry for the fieldtype (default `Data`), falling
back to a plain string type for unknown fieldtypes. -/
def mapTyped (field : Field) : Json :=
  (mapBaseProps field).updateWith
    ((tableGet field_type_mapping (field.fieldtype.getD "Data")).getD [("type", .str "string")])

/-- Stage 3 of `map_frappe_field_to_openapi` (src/app.py lines 337-343):
for a Select field with truthy options, split on newline, strip each line,
drop empties, and set `enum` when any lines remain. -/
def mapWithSelectEnum (field : Field) : Json :=
  let p := mapTyped field
  if field.fieldtype.getD "Data" = "Select" && truthy field.options then
    let options := ((pySplitNL (field.options.getD "")).map pyStrip).filter (· ≠ "")
    if !options.isEmpty then p.set "enum" (.arr (options.map .str)) else p
  else p

/-- `OpenAPIGenerator.map_frappe_field_to_openapi` (src/app.py lines
291-349): the full mapper; the last stage (lines 345-347) appends the link
target to the description of a Link field with truthy options. -/
def map_frappe_field_to_openapi (field : Field) : Json :=
  let p := mapWithSelectEnum field
  if field.fieldtype.getD "Data" = "Link" && truthy field.options then
    match p.get? "description" with
    | some (.str d) => p.set "description" (.str (d ++ " (Links to " ++ field.options.getD "" ++ ")"))
    | _ => p
  else p

/-- The layout-only field types skipped by the two schema-building loops
(src/app.py lines 273-277 and 387-391). -/
def schemaLoopLayoutTypes : List String := ["Section Break", "Column Break", "HTML"]

/-- The layout-only field types skipped by the detail view's field filter
(src/app.py line 820); it also excludes "Tab Break". -/
def detailViewLayoutTypes : List String := ["Section Break", "Column Break", "HTML", "Tab Break"]

/-- The filter condition of the schema-building loops: keep the field unless
its `fieldname` is falsy or its `fieldtype` is one of the three layout types. -/
def keptBySchemaLoop (f : Field) : Bool :=
  truthy f.fieldname && !(inList f.fieldtype schemaLoopLayoutTypes)

/-- The filter of `doctype_detail` (src/app.py lines 816-821). -/
def keptByDetailView (f : Field) : Bool :=
  truthy f.fieldname && !(inList f.fieldtype detailViewLayoutTypes)

/-- The `actual_fields` list comprehension of `doctype_detail`. -/
def actual_fields (fields : List Field) : List Field :=
  fields.filter keptByDetailView

/-- The body of one iteration of the schema-building loops once the filter has
passed: insert the mapped property and extend `required` if `reqd` is truthy. -/
def processFieldStep (acc : List (String × Json) × List String) (field : Field) :
    List (String × Json) × List String :=
  let fieldname := field.fieldname.getD ""
  (setKey acc.1 fieldname (map_frappe_field_to_openapi field),
   if field.reqd then acc.2 ++ [fieldname] else acc.2)

/-- One iteration of the shared schema-building loop (filter, then process). -/
def schemaLoopStep (acc : List (String × Json) × List String) (field : Field) :
    List (String × Json) × List String :=
  if keptBySchemaLoop field then processFieldStep acc field else acc

/-- `OpenAPIGenerator.frappe_fields_to_typescript_json_schema`
(src/app.py lines 269-284). -/
def frappe_fields_to_typescript_json_schema (fields : List Field) : Json :=
  let res := fields.foldl schemaLoopStep ([], [])
  .obj [("type", .str "object"), ("properties", .obj res.1), ("required", .arr (res.2.map .str))]

/-- One document of the metadata envelope: the only key the generator reads
from it is `fields` (with default `[]`). -/
structure Doc where
  fields : List Field := []

/-- The metadata value handed to `generate_doctype_schema`: either a bare
Python list of field dicts, or a dict whose `docs` key (default `[]`) holds
the document envelope. -/
inductive Metadata where
  | list (fields : List Field)
  | dict (docs : List Doc)

/-- Python truthiness of a metadata value (a bare list is falsy when empty; a
dict carrying a `docs` entry is a non-empty dict, hence truthy). -/
def Metadata.truthy : Metadata → Bool
  | .list fs => !fs.isEmpty
  | .dict _ => true

/-- The fixed envelope of standard document properties installed by
`generate_doctype_schema` (src/app.py lines 362-383). -/
def envelopeProperties : List (String × Json) := [
  ("name", .obj [("type", .str "string"), ("description", .str "Document ID/name"), ("readOnly", .bool true)]),
  ("owner", .obj [("type", .str "string"), ("description", .str "Document owner"), ("readOnly", .bool true)]),
  ("creation", .obj [("type", .str "string"), ("format", .str "date-time"), ("readOnly", .bool true)]),
  ("modified", .obj [("type", .str "string"), ("format", .str "date-time"), ("readOnly", .bool true)]),
  ("modified_by", .obj [("type", .str "string"), ("readOnly", .bool true)]),
  ("docstatus", .obj [("type", .str "integer"), ("enum", .arr [.int 0, .int 1, .int 2]), ("readOnly", .bool true)]),
  ("doctype", .obj [("type", .str "string"), ("readOnly", .bool true)])]

/-- `OpenAPIGenerator.generate_doctype_schema` (src/app.py lines 351-402). -/
def generate_doctype_schema (_doctype : String) (metadata : Metadata) : Json :=
  match metadata with
  | .list _ => .obj []
  | .dict docs =>
    match docs with
    | [] => .obj []
    | doctype_doc :: _ =>
      let fields := doctype_doc.fields
      let res := fields.foldl schemaLoopStep (envelopeProperties, [])
      .obj [("type", .str "object"), ("properties", .obj res.1), ("required", .arr (res.2.map .str))]

/-- The `$ref` object `{"$ref": "#/components/schemas/<doctype>"}`. -/
def schemaRef (doctype : String) : Json :=
  .obj [("$ref", .str ("#/components/schemas/" ++ doctype))]

/-- A query parameter object of the collection `get` operation. -/
def queryParam (nm ty descr : String) : Json :=
  .obj [("name", .str nm), ("in", .str "query"), ("schema", .obj [("type", .str ty)]),
        ("description", .str descr)]

/-- The required `name` path parameter of the item operations. -/
def namePathParam : Json :=
  .obj [("name", .str "name"), ("in", .str "path"), ("required", .bool true),
        ("schema", .obj [("type", .str "string")])]

/-- A `{"data": inner}` object-schema envelope. -/
def dataEnvelope (inner : Json) : Json :=
  .obj [("type", .str "object"), ("properties", .obj [("data", inner)])]

/-- A `content: {application/json: {schema: s}}` response/request body part. -/
def jsonContent (s : Json) : Json :=
  .obj [("application/json", .obj [("schema", s)])]

/-- The collection path item of `_add_crud_paths` (src/app.py lines 459-539):
`get` and `post` on `/api/resource/<doctype>`. -/
def collectionPathItem (doctype : String) : Json := .obj [
  ("get", .obj [
    ("summary", .str ("List " ++ doctype ++ " documents")),
    ("tags", .arr [.str doctype]),
    ("parameters", .arr [
      queryParam "fields" "string" "Comma-separated list of fields",
      queryParam "filters" "string" "JSON string of filters",
      queryParam "limit_start" "integer" "Starting index",
      queryParam "limit_page_length" "integer" "Page size"]),
    ("responses", .obj [("200", .obj [
      ("description", .str ("List of " ++ doctype ++ " documents")),
      ("content", jsonContent (dataEnvelope (.obj [("type", .str "array"), ("items", schemaRef doctype)])))])])]),
  ("post", .obj [
    ("summary", .str ("Create " ++ doctype ++ " document")),
    ("tags", .arr [.str doctype]),
    ("requestBody", .obj [("required", .bool true), ("content", jsonContent (schemaRef doctype))]),
    ("responses", .obj [("200", .obj [
      ("description", .str (doctype ++ " document created")),
      ("content", jsonContent (dataEnvelope (schemaRef doctype)))])])])]

/-- The item path item of `_add_crud_paths` (src/app.py lines 542-606):
`get`, `put` and `delete` on `/api/resource/<doctype>/{name}`. -/
def itemPathItem (doctype : String) : Json := .obj [
  ("get", .obj [
    ("summary", .str ("Get " ++ doctype ++ " document")),
    ("tags", .arr [.str doctype]),
    ("parameters", .arr [namePathParam]),
    ("responses", .obj [("200", .obj [
      ("description", .str (doctype ++ " document")),
      ("content", jsonContent (dataEnvelope (schemaRef doctype)))])])]),
  ("put", .obj [
    ("summary", .str ("Update " ++ doctype ++ " document")),
    ("tags", .arr [.str doctype]),
    ("parameters", .arr [namePathParam]),
    ("requestBody", .obj [("required", .bool true), ("content", jsonContent (schemaRef doctype))]),
    ("responses", .obj [("200", .obj [("description", .str (doctype ++ " document updated"))])])]),
  ("delete", .obj [
    ("summary", .str ("Delete " ++ doctype ++ " document")),
    ("tags", .arr [.str doctype]),
    ("parameters", .arr [namePathParam]),
    ("responses", .obj [("202", .obj [("description", .str (doctype ++ " document deleted"))])])])]

/-- The collection path string `/api/resource/<doctype>`. -/
def collectionPath (doctype : String) : String := "/api/resource/" ++ doctype

/-- The item path string `/api/resource/<doctype>/{name}`. -/
def itemPath (doctype : String) : String := "/api/resource/" ++ doctype ++ "/\x7bname\x7d"

/-- `OpenAPIGenerator._add_crud_paths` (src/app.py lines 453-606) as a pure
update of the `paths` dictionary. -/
def add_crud_paths (paths : List (String × Json)) (doctype : String) : List (String × Json) :=
  setKey (setKey paths (collectionPath doctype) (collectionPathItem doctype))
    (itemPath doctype) (itemPathItem doctype)

/-- The `info` overrides handed to `generate_openapi_spec` (each key read with
a fixed default). -/
structure Info where
  title : Option String := none
  description : Option String := none
  version : Option String := none

/-- The document skeleton of `generate_openapi_spec` (src/app.py lines
406-429), assembled together with the final `schemas` and `paths` dicts that
the per-DocType loop produces. -/
def buildSpecDoc (serverUrl : String) (info : Info)
    (schemas paths : List (String × Json)) : Json := .obj [
  ("openapi", .str "3.0.3"),
  ("info", .obj [
    ("title", .str (info.title.getD "ERPNext API")),
    ("description", .str (info.description.getD "Auto-generated OpenAPI specification for ERPNext")),
    ("version", .str (info.version.getD "1.0.0"))]),
  ("servers", .arr [.obj [("url", .str serverUrl), ("description", .str "ERPNext Server")]]),
  ("components", .obj [
    ("securitySchemes", .obj [("ApiKeyAuth", .obj [
      ("type", .str "apiKey"),
      ("in", .str "header"),
      ("name", .str "Authorization"),
      ("description", .str "Use \"token api_key:api_secret\"")])]),
    ("schemas", .obj schemas)]),
  ("security", .arr [.obj [("ApiKeyAuth", .arr [])]]),
  ("paths", .obj paths)]

/-- One iteration of the per-DocType loop of `generate_openapi_spec`
(src/app.py lines 431-438): fetch metadata, and when it is truthy and its
schema is truthy, insert the schema and add the CRUD paths. -/
def specStep (metadataOf : String → Option Metadata)
    (acc : List (String × Json) × List (String × Json)) (doctype : String) :
    List (String × Json) × List (String × Json) :=
  match metadataOf doctype with
  | none => acc
  | some metadata =>
    if metadata.truthy then
      let schema := generate_doctype_schema doctype metadata
      if schema.truthy then (setKey acc.1 doctype schema, add_crud_paths acc.2 doctype)
      else acc
    else acc

/-- `OpenAPIGenerator.generate_openapi_spec` (src/app.py lines 404-440); the
connection's metadata fetch is abstracted as `metadataOf` (absent or falsy
responses are `none`-like via `Metadata.truthy`). -/
def generate_openapi_spec (metadataOf : String → Option Metadata)
    (doctypes : List String) (serverUrl : String) (info : Info) : Json :=
  let res := doctypes.foldl (specStep metadataOf) ([], [])
  buildSpecDoc serverUrl info res.1 res.2

/-- Python `str()` on the atomic JSON values that can appear as enum members
or item types (containers never occur there in generated schemas). -/
def pyStr : Json → String
  | .str s => s
  | .int n => toString n
  | .bool b => if b then "True" else "False"
  | .arr _ => ""
  | .obj _ => ""

/-- The `ts_type` chain of `json_schema_to_typescript_interface`
(src/app.py lines 225-243): Python `==` against the string constants only
succeeds on string values, so every other shape falls through to `any`. -/
def tsPrimType (details : Json) : String :=
  match details.get? "type" with
  | some (.str "string") => "string"
  | some (.str "integer") => "number"
  | some (.str "number") => "number"
  | some (.str "boolean") => "boolean"
  | some (.str "array") =>
    let itemType :=
      match ((details.get? "items").getD (.obj [])).get? "type" with
      | some (.str t) => if t ≠ "" then (if t = "object" then "Record<string, any>" else t) else "any"
      | some t => if t.truthy then pyStr t else "any"
      | none => "any"
    itemType ++ "[]"
  | some (.str "object") => "Record<string, any>"
  | _ => "any"

/-- Python `prop[0].upper() + prop[1:]` (property names are never empty in
generated schemas; Python would raise on an empty one). -/
def capFirst (s : String) : String :=
  match s.data with
  | [] => ""
  | c :: rest => ⟨c.toUpper :: rest⟩

/-- Formatting of one enum member (src/app.py lines 250-254): strings are
single-quoted, other values rendered with `str()`. -/
def formatEnumVal (v : Json) : String :=
  match v with
  | .str s => "\x27" ++ s ++ "\x27"
  | v => pyStr v

/-- The enum members list: iterating `details["enum"]` (always an array in
generated schemas). -/
def enumMembers (e : Json) : List Json :=
  match e with
  | .arr xs => xs
  | _ => []

/-- The enum declaration text built for property `prop` with enum value `e`. -/
def enumDecl (prop : String) (e : Json) : String :=
  "export enum " ++ (capFirst prop ++ "Enum") ++ " \x7b " ++
    String.intercalate ", " ((enumMembers e).map formatEnumVal) ++ " \x7d"

/-- The property line `  <prop><?>: <ty>;` with the optional marker present
iff `prop` is not in the required set. -/
def propLine (required : List String) (prop ty : String) : String :=
  "  " ++ prop ++ (if required.contains prop then "" else "?") ++ ": " ++ ty ++ ";"

/-- One iteration of the property loop of `json_schema_to_typescript_interface`
(src/app.py lines 224-264), accumulating enum declarations and body lines. -/
def tsLoopStep (required : List String) (acc : List String × List String)
    (entry : String × Json) : List String × List String :=
  let ts_type := tsPrimType entry.2
  match entry.2.get? "enum" with
  | some e => (acc.1 ++ [enumDecl entry.1 e], acc.2 ++ [propLine required entry.1 (capFirst entry.1 ++ "Enum")])
  | none => (acc.1, acc.2 ++ [propLine required entry.1 ts_type])

/-- String elements of the `required` array (Python set membership of a
string key can only match string elements). -/
def requiredStrings (j : Json) : List String :=
  match j with
  | .arr xs => xs.filterMap (fun v => match v with | .str s => some s | _ => none)
  | _ => []

/-- `OpenAPIGenerator.json_schema_to_typescript_interface`
(src/app.py lines 215-267). -/
def json_schema_to_typescript_interface (schema : Json) (interface_name : String) : String :=
  let properties := match schema.get? "properties" with | some (.obj kvs) => kvs | _ => []
  let required := requiredStrings ((schema.get? "required").getD (.arr []))
  let res := properties.foldl (tsLoopStep required) ([], ["export interface " ++ interface_name ++ " \x7b"])
  String.intercalate "\n\n" (res.1 ++ [String.intercalate "\n" (res.2 ++ ["\x7d"])])

mutual

/-- Collect every string value stored under a `$ref` key anywhere inside a
JSON value, in document order. -/
def collectRefs : Json → List String
  | .obj kvs => collectRefsPairs kvs
  | .arr xs => collectRefsList xs
  | _ => []

/-- Helper of `collectRefs` for array elements. -/
def collectRefsList : List Json → List String
  | [] => []
  | x :: xs => collectRefs x ++ collectRefsList xs

/-- Helper of `collectRefs` for object entries. -/
def collectRefsPairs : List (String × Json) → List String
  | [] => []
  | (k, v) :: rest =>
    (if k = "$ref" then (match v with | .str s => [s] | _ => []) else [])
      ++ collectRefs v ++ collectRefsPairs rest

end

/-- The `paths` dictionary entries of a composed document. -/
def pathsOf (spec : Json) : List (String × Json) :=
  match spec.get? "paths" with
  | some (.obj kvs) => kvs
  | _ => []

/-- The `components.schemas` dictionary entries of a composed document. -/
def schemasOf (spec : Json) : List (String × Json) :=
  match (spec.get? "components").bind (fun c => c.get? "schemas") with
  | some (.obj kvs) => kvs
  | _ => []

/-- The `properties` entries of an entity schema. -/
def propsOf (schema : Json) : List (String × Json) :=
  match schema.get? "properties" with
  | some (.obj kvs) => kvs
  | _ => []

/-- The `required` names of an entity schema. -/
def requiredOf (schema : Json) : List String :=
  requiredStrings ((schema.get? "required").getD (.arr []))

/-- The fieldnames of the fields kept by the schema-building loops, in input
order (the dynamic property names, including duplicates). -/
def dynNames (fields : List Field) : List String :=
  (fields.filter keptBySchemaLoop).map (fun f => f.fieldname.getD "")

/-- The fieldnames that the schema-building loops append to `required`,
in input order. -/
def reqNames (fields : List Field) : List String :=
  ((fields.filter keptBySchemaLoop).filter (fun f => f.reqd)).map (fun f => f.fieldname.getD "")

/-- The property descriptor stored for key `k` after the schema-building loop
has run: the mapped descriptor of the last kept field named `k`, if any. -/
def lastAssigned : List Field → String → Option Json
  | [], _ => none
  | f :: rest, k =>
    match lastAssigned rest k with
    | some v => some v
    | none =>
      if keptBySchemaLoop f && (f.fieldname.getD "" == k) then
        some (map_frappe_field_to_openapi f)
      else none

/-- Modelled from the claim text of C2: the number of fieldname collisions in
a name sequence against an initial set of seen keys — a name colliding with a
seen key or with an earlier name counts one collision. -/
def collisionCount : List String → List String → Nat
  | _, [] => 0
  | seen, n :: rest =>
    if n ∈ seen then 1 + collisionCount seen rest
    else collisionCount (seen ++ [n]) rest

/-- Modelled from the claim text of C1: keep a field iff its `fieldname` is a
non-empty string and its `fieldtype` is none of the given layout-only kinds. -/
def claimKeeps (layout : List String) (f : Field) : Bool :=
  decide ((f.fieldname.getD "" ≠ "") ∧ ∀ t ∈ layout, f.fieldtype ≠ some t)

/-- Modelled from the claim text of C7: the enum declaration blocks, one per
enum-carrying property, in property visitation order. -/
def claimEnumBlocks (props : List (String × Json)) : List String :=
  props.filterMap (fun e =>
    match e.2.get? "enum" with
    | some v => some (enumDecl e.1 v)
    | none => none)

/-- Modelled from the claim text of C7: the type token of one property — the
enum name for an enum-carrying property, the primitive mapping otherwise. -/
def claimTypeToken (e : String × Json) : String :=
  match e.2.get? "enum" with
  | some _ => capFirst e.1 ++ "Enum"
  | none => tsPrimType e.2

/-- Modelled from the claim text of C7: the single interface block — opening
brace line, one line per property with an optional marker present iff the
property is not required, closing brace. -/
def claimInterfaceBlock (iname : String) (props : List (String × Json))
    (required : List String) : String :=
  String.intercalate "\n"
    (["export interface " ++ iname ++ " \x7b"]
      ++ props.map (fun e =>
           "  " ++ e.1 ++ (if e.1 ∈ required then "" else "?") ++ ": " ++ claimTypeToken e ++ ";")
      ++ ["\x7d"])

/-- Follow a chain of object keys inside a JSON value. -/
def getPath (j : Json) : List String → Option Json
  | [] => some j
  | k :: ks =>
    match j.get? k with
    | some v => getPath v ks
    | none => none

/-- The keys of a JSON object, in insertion order. -/
def objKeys (j : Json) : List String :=
  match j with
  | .obj kvs => kvs.map Prod.fst
  | _ => []

/-- A concrete Tab Break field (a layout pseudo-field with a non-empty
fieldname), used to compare the three field filters. -/
def tbField : Field := { fieldname := some "tab1", fieldtype := some "Tab Break" }

/-- A concrete ordinary data field. -/
def dataField : Field := { fieldname := some "customer_name", fieldtype := some "Data", reqd := true }

/-- A concrete Select field whose options carry surrounding whitespace. -/
def selectField : Field :=
  { fieldname := some "status", fieldtype := some "Select", options := some " A \nB\n C\t" }

/-- A concrete field with a fieldtype absent from the type table. -/
def frobField : Field := { fieldname := some "z", fieldtype := some "Frobnicate" }

/-- A concrete one-document metadata envelope holding one data field. -/
def sampleMetadata : Metadata := .dict [{ fields := [dataField] }]

/-- A concrete metadata assignment: only the DocType "Customer" resolves. -/
def sampleMetadataOf : String → Option Metadata :=
  fun d => if d = "Customer" then some sampleMetadata else none

/-! Helper lemmas about association-list dictionaries. -/

theorem lookup_setKey_self (m : List (String × Json)) (k : String) (v : Json) :
    lookup (setKey m k v) k = some v := by
  induction m with
  | nil => simp [setKey, lookup]
  | cons hd tl ih =>
    obtain ⟨k', v'⟩ := hd
    by_cases h : k' = k
    · simp [setKey, lookup, h]
    · simp [setKey, lookup, h, ih]

theorem lookup_setKey_ne (m : List (String × Json)) (k : String) (v : Json)
    (k' : String) (h : k' ≠ k) : lookup (setKey m k v) k' = lookup m k' := by
  have hkk : ¬ (k = k') := fun hh => h hh.symm
  induction m with
  | nil =>
    show lookup [(k, v)] k' = none
    show (if k = k' then some v else none) = none
    rw [if_neg hkk]
  | cons hd tl ih =>
    obtain ⟨k0, v0⟩ := hd
    show lookup (if k0 = k then (k0, v) :: tl else (k0, v0) :: setKey tl k v) k' = _
    by_cases h0 : k0 = k
    · rw [if_pos h0]
      have h1 : ¬ (k0 = k') := by rw [h0]; exact hkk
      show (if k0 = k' then some v else lookup tl k') = (if k0 = k' then some v0 else lookup tl k')
      rw [if_neg h1, if_neg h1]
    · rw [if_neg h0]
      show (if k0 = k' then some v0 else lookup (setKey tl k v) k') =
        (if k0 = k' then some v0 else lookup tl k')
      by_cases h1 : k0 = k'
      · rw [if_pos h1, if_pos h1]
      · rw [if_neg h1, if_neg h1, ih]

theorem fst_setKey (m : List (String × Json)) (k : String) (v : Json) :
    (setKey m k v).map Prod.fst =
      if k ∈ m.map Prod.fst then m.map Prod.fst else m.map Prod.fst ++ [k] := by
  induction m with
  | nil => simp [setKey]
  | cons hd tl ih =>
    obtain ⟨k0, v0⟩ := hd
    show ((if k0 = k then (k0, v) :: tl else (k0, v0) :: setKey tl k v)).map Prod.fst = _
    by_cases h0 : k0 = k
    · subst h0
      simp
    · rw [if_neg h0]
      have hkk0 : ¬ (k = k0) := fun hh => h0 hh.symm
      by_cases hm : k ∈ tl.map Prod.fst
      · have hmem : k ∈ ((k0, v0) :: tl).map Prod.fst := by simp [hm]
        rw [if_pos hmem]
        simp [ih, hm]
      · have hmem : k ∉ ((k0, v0) :: tl).map Prod.fst := by
          simp [List.mem_cons, hkk0, hm]
        rw [if_neg hmem]
        simp [ih, hm]

theorem length_setKey (m : List (String × Json)) (k : String) (v : Json) :
    (setKey m k v).length =
      if k ∈ m.map Prod.fst then m.length else m.length + 1 := by
  induction m with
  | nil => simp [setKey]
  | cons hd tl ih =>
    obtain ⟨k0, v0⟩ := hd
    show ((if k0 = k then (k0, v) :: tl else (k0, v0) :: setKey tl k v)).length = _
    by_cases h0 : k0 = k
    · subst h0
      simp
    · rw [if_neg h0]
      have hkk0 : ¬ (k = k0) := fun hh => h0 hh.symm
      by_cases hm : k ∈ tl.map Prod.fst
      · have hmem : k ∈ ((k0, v0) :: tl).map Prod.fst := by simp [hm]
        rw [if_pos hmem]
        simp [ih, hm]
      · have hmem : k ∉ ((k0, v0) :: tl).map Prod.fst := by
          simp [List.mem_cons, hkk0, hm]
        rw [if_neg hmem]
        simp [ih, hm]

theorem lookup_eq_none_of_not_mem (m : List (String × Json)) (k : String)
    (h : k ∉ m.map Prod.fst) : lookup m k = none := by
  induction m with
  | nil => rfl
  | cons hd tl ih =>
    obtain ⟨k0, v0⟩ := hd
    have h1 : ¬ (k0 = k) := by
      intro hh
      exact h (by simp [hh])
    have h2 : k ∉ tl.map Prod.fst := by
      intro hm
      exact h (by simp [hm])
    show (if k0 = k then some v0 else lookup tl k) = none
    rw [if_neg h1]
    exact ih h2

theorem tableGet_eq_none_of_not_mem (tbl : List (String × List (String × Json)))
    (k : String) (h : k ∉ tbl.map Prod.fst) : tableGet tbl k = none := by
  induction tbl with
  | nil => rfl
  | cons hd tl ih =>
    obtain ⟨k0, v0⟩ := hd
    have h1 : ¬ (k0 = k) := by
      intro hh
      exact h (by simp [hh])
    have h2 : k ∉ tl.map Prod.fst := by
      intro hm
      exact h (by simp [hm])
    show (if k0 = k then some v0 else tableGet tl k) = none
    rw [if_neg h1]
    exact ih h2

theorem requiredStrings_map_str (l : List String) :
    requiredStrings (.arr (l.map .str)) = l := by
  induction l with
  | nil => rfl
  | cons hd tl ih =>
    simpa [requiredStrings, List.filterMap] using ih

/-! Helper lemmas about the shared schema-building loop. -/

theorem schemaLoopStep_kept (acc : List (String × Json) × List String) (f : Field)
    (h : keptBySchemaLoop f = true) :
    schemaLoopStep acc f =
      (setKey acc.1 (f.fieldname.getD "") (map_frappe_field_to_openapi f),
       if f.reqd then acc.2 ++ [f.fieldname.getD ""] else acc.2) := by
  simp [schemaLoopStep, processFieldStep, h]

theorem schemaLoopStep_skip (acc : List (String × Json) × List String) (f : Field)
    (h : keptBySchemaLoop f = false) : schemaLoopStep acc f = acc := by
  simp [schemaLoopStep, h]

theorem reqNames_cons (f : Field) (rest : List Field) :
    reqNames (f :: rest) =
      (if keptBySchemaLoop f && f.reqd then [f.fieldname.getD ""] else []) ++ reqNames rest := by
  by_cases hk : keptBySchemaLoop f
  · by_cases hr : f.reqd <;> simp [reqNames, List.filter_cons, hk, hr]
  · simp [reqNames, List.filter_cons, hk]

theorem dynNames_cons (f : Field) (rest : List Field) :
    dynNames (f :: rest) =
      (if keptBySchemaLoop f then [f.fieldname.getD ""] else []) ++ dynNames rest := by
  by_cases hk : keptBySchemaLoop f <;> simp [dynNames, List.filter_cons, hk]

theorem foldl_schemaLoopStep_snd (fields : List Field) :
    ∀ (m : List (String × Json)) (r : List String),
      (fields.foldl schemaLoopStep (m, r)).2 = r ++ reqNames fields := by
  induction fields with
  | nil =>
    intro m r
    simp [reqNames]
  | cons f rest ih =>
    intro m r
    show (rest.foldl schemaLoopStep (schemaLoopStep (m, r) f)).2 = _
    rw [reqNames_cons]
    by_cases hk : keptBySchemaLoop f
    · rw [schemaLoopStep_kept _ _ hk]
      by_cases hr : f.reqd
      · rw [ih]
        simp [hk, hr]
      · rw [ih]
        simp [hk, hr]
    · rw [schemaLoopStep_skip _ _ (by simp [hk]), ih]
      simp [hk]

theorem foldl_schemaLoopStep_lookup (fields : List Field) :
    ∀ (m : List (String × Json)) (r : List String) (k : String),
      lookup (fields.foldl schemaLoopStep (m, r)).1 k =
        (lastAssigned fields k).elim (lookup m k) some := by
  induction fields with
  | nil =>
    intro m r k
    rfl
  | cons f rest ih =>
    intro m r k
    show lookup (rest.foldl schemaLoopStep (schemaLoopStep (m, r) f)).1 k = _
    by_cases hk : keptBySchemaLoop f
    · rw [schemaLoopStep_kept _ _ hk, ih]
      cases hla : lastAssigned rest k with
      | some v => simp [lastAssigned, hla]
      | none =>
        simp only [lastAssigned, hla, Option.elim]
        by_cases hn : f.fieldname.getD "" = k
        · rw [← hn, lookup_setKey_self]
          simp [hk, hn]
        · rw [lookup_setKey_ne _ _ _ _ (fun hh => hn hh.symm)]
          simp [hk, hn]
    · rw [schemaLoopStep_skip _ _ (by simp [hk]), ih]
      have hcond : (keptBySchemaLoop f && (f.fieldname.getD "" == k)) = false := by
        simp [hk]
      simp only [lastAssigned, hcond, Bool.false_eq_true, if_false]
      cases lastAssigned rest k with
      | some v => rfl
      | none => rfl

theorem lastAssigned_eq_none_iff (fields : List Field) (k : String) :
    lastAssigned fields k = none ↔ k ∉ dynNames fields := by
  induction fields with
  | nil => simp [lastAssigned, dynNames]
  | cons f rest ih =>
    rw [dynNames_cons]
    cases hla : lastAssigned rest k with
    | some v =>
      have hmem : k ∈ dynNames rest := by
        by_contra hmem
        rw [ih.mpr hmem] at hla
        cases hla
      simp [lastAssigned, hla, hmem]
    | none =>
      have hnm : k ∉ dynNames rest := ih.mp hla
      by_cases hk : keptBySchemaLoop f
      · by_cases hn : f.fieldname.getD "" = k
        · simp [lastAssigned, hla, hk, hn, hnm]
        · have hn2 : ¬ (k = f.fieldname.getD "") := fun hh => hn hh.symm
          simp [lastAssigned, hla, hk, hn, hnm, hn2]
      · simp [lastAssigned, hla, hk, hnm]

theorem foldl_schemaLoopStep_length (fields : List Field) :
    ∀ (m : List (String × Json)) (r : List String),
      (fields.foldl schemaLoopStep (m, r)).1.length +
          collisionCount (m.map Prod.fst) (dynNames fields)
        = m.length + (fields.filter keptBySchemaLoop).length := by
  induction fields with
  | nil =>
    intro m r
    simp [dynNames, collisionCount]
  | cons f rest ih =>
    intro m r
    show ((rest.foldl schemaLoopStep (schemaLoopStep (m, r) f)).1.length + _ = _)
    rw [dynNames_cons, List.filter_cons]
    by_cases hk : keptBySchemaLoop f
    · rw [schemaLoopStep_kept _ _ hk]
      have hlen := length_setKey m (f.fieldname.getD "") (map_frappe_field_to_openapi f)
      have hkeys := fst_setKey m (f.fieldname.getD "") (map_frappe_field_to_openapi f)
      by_cases hm : f.fieldname.getD "" ∈ m.map Prod.fst
      · rw [if_pos hm] at hlen hkeys
        have hih := ih (setKey m (f.fieldname.getD "") (map_frappe_field_to_openapi f))
          (if f.reqd then r ++ [f.fieldname.getD ""] else r)
        rw [hkeys, hlen] at hih
        simp [hk, collisionCount, hm]
        omega
      · rw [if_neg hm] at hlen hkeys
        have hih := ih (setKey m (f.fieldname.getD "") (map_frappe_field_to_openapi f))
          (if f.reqd then r ++ [f.fieldname.getD ""] else r)
        rw [hkeys, hlen] at hih
        simp [hk, collisionCount, hm]
        omega
    · rw [schemaLoopStep_skip _ _ (by simp [hk])]
      simp [hk]
      exact ih m r

theorem collisionCount_le (seen l : List String) : collisionCount seen l ≤ l.length := by
  induction l generalizing seen with
  | nil => simp [collisionCount]
  | cons n rest ih =>
    by_cases hm : n ∈ seen
    · simp [collisionCount, hm]
      have := ih seen
      omega
    · simp [collisionCount, hm]
      have := ih (seen ++ [n])
      omega

theorem foldl_schemaLoopStep_eq_filter (fields : List Field) :
    ∀ acc, fields.foldl schemaLoopStep acc =
      (fields.filter keptBySchemaLoop).foldl processFieldStep acc := by
  induction fields with
  | nil =>
    intro acc
    rfl
  | cons f rest ih =>
    intro acc
    show rest.foldl schemaLoopStep (schemaLoopStep acc f) = _
    rw [List.filter_cons]
    by_cases hk : keptBySchemaLoop f
    · rw [if_pos hk]
      show _ = (rest.filter keptBySchemaLoop).foldl processFieldStep (processFieldStep acc f)
      rw [show schemaLoopStep acc f = processFieldStep acc f from by simp [schemaLoopStep, hk]]
      exact ih _
    · rw [if_neg (by simp [hk]), schemaLoopStep_skip _ _ (by simp [hk])]
      exact ih acc

theorem claimKeeps_eq_kept (l : List String) (f : Field) :
    claimKeeps l f = (truthy f.fieldname && !(inList f.fieldtype l)) := by
  obtain ⟨fn, ft, lb, op, rq, ro, df⟩ := f
  rw [Bool.eq_iff_iff]
  cases fn with
  | none => simp [claimKeeps, truthy]
  | some s =>
    cases ft with
    | none => simp [claimKeeps, truthy, inList]
    | some t =>
      simp [claimKeeps, truthy, inList]
      intro _
      constructor
      · intro h hmem
        exact h t hmem rfl
      · intro h t' hmem ht
        exact h (ht ▸ hmem)

theorem claimKeeps_eq_keptBySchemaLoop (f : Field) :
    claimKeeps ["Section Break", "Column Break", "HTML"] f = keptBySchemaLoop f :=
  claimKeeps_eq_kept schemaLoopLayoutTypes f

theorem claimKeeps_eq_keptByDetailView (f : Field) :
    claimKeeps ["Section Break", "Column Break", "HTML", "Tab Break"] f = keptByDetailView f :=
  claimKeeps_eq_kept detailViewLayoutTypes f

/-- C1 (counterexample): the claim's four-kind filter is not applied by the
schema-building loops.  A Tab Break field with a non-empty fieldname is kept
by `frappe_fields_to_typescript_json_schema` (it lands in `properties`),
while the detail view's `actual_fields` filter drops it. -/
theorem C1_counterexample :
    propsOf (frappe_fields_to_typescript_json_schema [tbField])
        = [("tab1", map_frappe_field_to_openapi tbField)]
      ∧ actual_fields [tbField] = [] :=
  ⟨rfl, rfl⟩

/-- C1 (amended): the normalization filter keeps exactly the fields with a
non-empty `fieldname` whose `fieldtype` is not a layout-only kind, in input
order, with empty input yielding empty output; but the two schema-building
loops exclude only {Section Break, Column Break, HTML} (Tab Break fields are
kept there), while the detail-view list additionally excludes Tab Break. -/
theorem C1_amended (fields : List Field) :
    (∀ acc, fields.foldl schemaLoopStep acc =
        (fields.filter (claimKeeps ["Section Break", "Column Break", "HTML"])).foldl
          processFieldStep acc)
      ∧ actual_fields fields
          = fields.filter (claimKeeps ["Section Break", "Column Break", "HTML", "Tab Break"]) := by
  constructor
  · intro acc
    rw [List.filter_congr (fun f _ => claimKeeps_eq_keptBySchemaLoop f)]
    exact foldl_schemaLoopStep_eq_filter fields acc
  · rw [List.filter_congr (fun f _ => claimKeeps_eq_keptByDetailView f)]
    rfl

/-- C2: in every assembled entity schema, a fieldname is in `required` iff
some kept field with that name has a truthy `reqd` flag, and the number of
properties is the number of normalized fields plus the 7 envelope properties
minus the number of fieldname collisions (a dynamic field colliding with an
envelope key or an earlier dynamic fieldname). -/
theorem C2_required_iff_and_property_count (fields : List Field) (d : String) (rest : List Doc) :
    (∀ fn, fn ∈ requiredOf (generate_doctype_schema d (.dict ({ fields := fields } :: rest))) ↔
        ∃ f ∈ fields.filter keptBySchemaLoop, f.reqd ∧ f.fieldname.getD "" = fn)
      ∧ (propsOf (generate_doctype_schema d (.dict ({ fields := fields } :: rest)))).length
          = (fields.filter keptBySchemaLoop).length + 7
            - collisionCount
                ["name", "owner", "creation", "modified", "modified_by", "docstatus", "doctype"]
                (dynNames fields) := by
  have hreq : requiredOf (generate_doctype_schema d (.dict ({ fields := fields } :: rest)))
      = (fields.foldl schemaLoopStep (envelopeProperties, [])).2 := by
    show requiredStrings (.arr ((fields.foldl schemaLoopStep (envelopeProperties, [])).2.map .str)) = _
    exact requiredStrings_map_str _
  have hprops : propsOf (generate_doctype_schema d (.dict ({ fields := fields } :: rest)))
      = (fields.foldl schemaLoopStep (envelopeProperties, [])).1 := rfl
  constructor
  · intro fn
    rw [hreq, foldl_schemaLoopStep_snd]
    simp only [List.nil_append, reqNames]
    rw [List.mem_map]
    constructor
    · rintro ⟨f, hmem, hname⟩
      rw [List.mem_filter] at hmem
      exact ⟨f, hmem.1, hmem.2, hname⟩
    · rintro ⟨f, hmem, hreqd, hname⟩
      exact ⟨f, List.mem_filter.mpr ⟨hmem, hreqd⟩, hname⟩
  · rw [hprops]
    have hlen := foldl_schemaLoopStep_length fields envelopeProperties []
    have hkeys : envelopeProperties.map Prod.fst
        = ["name", "owner", "creation", "modified", "modified_by", "docstatus", "doctype"] := rfl
    have hdyn : (dynNames fields).length = (fields.filter keptBySchemaLoop).length := by
      simp [dynNames]
    have hcc := collisionCount_le
      ["name", "owner", "creation", "modified", "modified_by", "docstatus", "doctype"]
      (dynNames fields)
    rw [hkeys] at hlen
    have h7 : envelopeProperties.length = 7 := rfl
    omega

/-- C10: the two near-identical field-mapping loops agree — the schema built
by `frappe_fields_to_typescript_json_schema` has the same `required` list as
the schema built by `generate_doctype_schema`, and its properties are exactly
the restriction of the latter's properties to the dynamic fieldnames. -/
theorem C10_loops_agree (fields : List Field) (d : String) (rest : List Doc) :
    requiredOf (frappe_fields_to_typescript_json_schema fields)
        = requiredOf (generate_doctype_schema d (.dict ({ fields := fields } :: rest)))
      ∧ ∀ k, lookup (propsOf (frappe_fields_to_typescript_json_schema fields)) k
          = if k ∈ dynNames fields
            then lookup (propsOf (generate_doctype_schema d (.dict ({ fields := fields } :: rest)))) k
            else none := by
  constructor
  · show requiredStrings (.arr ((fields.foldl schemaLoopStep ([], [])).2.map .str))
        = requiredStrings (.arr ((fields.foldl schemaLoopStep (envelopeProperties, [])).2.map .str))
    rw [requiredStrings_map_str, requiredStrings_map_str,
      foldl_schemaLoopStep_snd, foldl_schemaLoopStep_snd]
  · intro k
    have h1 : lookup (propsOf (frappe_fields_to_typescript_json_schema fields)) k
        = (lastAssigned fields k).elim (lookup ([] : List (String × Json)) k) some :=
      foldl_schemaLoopStep_lookup fields [] [] k
    have h2 : lookup (propsOf (generate_doctype_schema d (.dict ({ fields := fields } :: rest)))) k
        = (lastAssigned fields k).elim (lookup envelopeProperties k) some :=
      foldl_schemaLoopStep_lookup fields envelopeProperties [] k
    rw [h1, h2]
    by_cases hmem : k ∈ dynNames fields
    · rw [if_pos hmem]
      cases hla : lastAssigned fields k with
      | some v => rfl
      | none => exact absurd ((lastAssigned_eq_none_iff fields k).mp hla) (by simp [hmem])

    · rw [if_neg hmem, (lastAssigned_eq_none_iff fields k).mpr hmem]
      rfl

theorem specStep_eq_of_empty_schema (M : String → Option Metadata)
    (acc : List (String × Json) × List (String × Json)) (d : String) (m : Metadata)
    (hM : M d = some m) (hs : generate_doctype_schema d m = .obj []) :
    specStep M acc d = acc := by
  unfold specStep
  rw [hM]
  by_cases ht : m.truthy
  · simp [ht, hs, Json.truthy]
  · simp [ht]

/-- C3: for a metadata value with no extractable field list (a bare list, or
an envelope with no documents), the assembler returns the empty schema, and
the composer skips the entity entirely — composing with the entity present
gives exactly the document composed without it, so the remaining entities
are processed unchanged and no failure occurs. -/
theorem C3_empty_metadata_skipped (d : String) (m : Metadata)
    (h : (∃ fs, m = .list fs) ∨ m = .dict []) :
    generate_doctype_schema d m = .obj []
      ∧ ∀ (M : String → Option Metadata) (xs ys : List String) (url : String) (info : Info),
          M d = some m →
            generate_openapi_spec M (xs ++ d :: ys) url info
              = generate_openapi_spec M (xs ++ ys) url info := by
  have hempty : generate_doctype_schema d m = .obj [] := by
    rcases h with ⟨fs, rfl⟩ | rfl
    · rfl
    · rfl
  refine ⟨hempty, ?_⟩
  intro M xs ys url info hM
  have hstep : ∀ acc, specStep M acc d = acc :=
    fun acc => specStep_eq_of_empty_schema M acc d m hM hempty
  unfold generate_openapi_spec
  rw [List.foldl_append, List.foldl_append]
  have hfold : List.foldl (specStep M) (List.foldl (specStep M) ([], []) xs) (d :: ys)
      = List.foldl (specStep M) (List.foldl (specStep M) ([], []) xs) ys := by
    show List.foldl (specStep M) (specStep M (List.foldl (specStep M) ([], []) xs) d) ys = _
    rw [hstep]
  rw [hfold]

/-- Witness for C3: the envelope with no documents yields the empty schema,
and a composition containing the entity equals the one without it. -/
theorem C3_empty_metadata_skipped_witness :
    generate_doctype_schema "Broken" (.dict []) = .obj []
      ∧ generate_openapi_spec (fun d => if d = "Broken" then some (.dict []) else none)
          ([] ++ "Broken" :: ["Customer"]) "http://e" {}
        = generate_openapi_spec (fun d => if d = "Broken" then some (.dict []) else none)
          ([] ++ ["Customer"]) "http://e" {} := by
  obtain ⟨h1, h2⟩ := C3_empty_metadata_skipped "Broken" (.dict []) (Or.inr rfl)
  exact ⟨h1, h2 _ [] ["Customer"] "http://e" {} rfl⟩

/-- C4 (counterexample): the assembler does not produce the same schema for a
bare field list as for that list wrapped in the envelope — the bare list
yields the empty schema while the envelope yields a populated one. -/
theorem C4_counterexample :
    generate_doctype_schema "X" (.list [dataField]) = .obj []
      ∧ (generate_doctype_schema "X" (.dict [{ fields := [dataField] }])).get? "type"
          = some (.str "object")
      ∧ generate_doctype_schema "X" (.dict [{ fields := [dataField] }])
          ≠ generate_doctype_schema "X" (.list [dataField]) := by
  refine ⟨rfl, rfl, fun h => ?_⟩
  exact Option.noConfusion (congrArg (fun j => Json.get? j "type") h)

/-- C4 (amended): the assembler accepts both metadata shapes without failing
and uses only the first document of the envelope; but the bare-list shape is
answered with the empty schema (a skip), not with the schema of the wrapped
list. -/
theorem C4_amended (d : String) (fs : List Field) (doc : Doc) (rest : List Doc) :
    generate_doctype_schema d (.list fs) = .obj []
      ∧ generate_doctype_schema d (.dict (doc :: rest)) = generate_doctype_schema d (.dict [doc])
      ∧ generate_doctype_schema d (.dict []) = .obj [] :=
  ⟨rfl, rfl, rfl⟩

theorem mapBaseProps_shape (field : Field) :
    ∃ kvs, mapBaseProps field = .obj kvs
      ∧ lookup kvs "type" = none ∧ lookup kvs "enum" = none ∧ lookup kvs "format" = none := by
  obtain ⟨fn, ft, lb, op, rq, ro, df⟩ := field
  unfold mapBaseProps
  cases ro with
  | false =>
    by_cases hd : truthy df
    · simp only [hd, if_true, if_false, Bool.false_eq_true]
      exact ⟨_, rfl, rfl, rfl, rfl⟩
    · simp only [hd, if_false, Bool.false_eq_true]
      exact ⟨_, rfl, rfl, rfl, rfl⟩
  | true =>
    by_cases hd : truthy df
    · simp only [hd, if_true]
      exact ⟨_, rfl, rfl, rfl, rfl⟩
    · simp only [hd, if_true, if_false]
      exact ⟨_, rfl, rfl, rfl, rfl⟩

theorem map_skip_link (field : Field) (h : ¬ (field.fieldtype.getD "Data" = "Link")) :
    map_frappe_field_to_openapi field = mapWithSelectEnum field := by
  unfold map_frappe_field_to_openapi
  simp [h]

theorem selectStage_skip_of_ne (field : Field)
    (h : ¬ (field.fieldtype.getD "Data" = "Select")) :
    mapWithSelectEnum field = mapTyped field := by
  unfold mapWithSelectEnum
  simp [h]

theorem selectStage_active (field : Field) (hft : field.fieldtype.getD "Data" = "Select")
    (htr : truthy field.options = true) :
    mapWithSelectEnum field =
      (if !(((pySplitNL (field.options.getD "")).map pyStrip).filter (· ≠ "")).isEmpty
       then (mapTyped field).set "enum"
         (.arr ((((pySplitNL (field.options.getD "")).map pyStrip).filter (· ≠ "")).map .str))
       else mapTyped field) := by
  unfold mapWithSelectEnum
  simp [hft, htr]

theorem mapTyped_select (field : Field) (hft : field.fieldtype = some "Select") :
    ∃ kvs, mapTyped field = .obj (setKey kvs "type" (.str "string"))
      ∧ lookup kvs "enum" = none ∧ lookup kvs "format" = none := by
  obtain ⟨kvs, hb, _, he, hf⟩ := mapBaseProps_shape field
  refine ⟨kvs, ?_, he, hf⟩
  unfold mapTyped
  rw [hft, hb]
  rfl

theorem mapTyped_unknown (field : Field) (t : String) (hft : field.fieldtype = some t)
    (h : t ∉ field_type_mapping.map Prod.fst) :
    ∃ kvs, mapTyped field = .obj (setKey kvs "type" (.str "string"))
      ∧ lookup kvs "enum" = none ∧ lookup kvs "format" = none := by
  obtain ⟨kvs, hb, _, he, hf⟩ := mapBaseProps_shape field
  refine ⟨kvs, ?_, he, hf⟩
  unfold mapTyped
  rw [hft, hb]
  show (Json.obj kvs).updateWith ((tableGet field_type_mapping t).getD [("type", .str "string")]) = _
  rw [tableGet_eq_none_of_not_mem _ _ h]
  rfl

/-- C5: for a Select field with a non-empty options string, the mapper splits
the options on newline, strips each line and drops empties; if any lines
remain, `enum` is that ordered list of strings, otherwise `enum` is omitted;
the property type is string either way. -/
theorem C5_select_enum (field : Field) (s : String)
    (hft : field.fieldtype = some "Select") (hopt : field.options = some s) (hne : s ≠ "") :
    (map_frappe_field_to_openapi field).get? "type" = some (.str "string")
      ∧ ((((pySplitNL s).map pyStrip).filter (· ≠ "")) ≠ [] →
          (map_frappe_field_to_openapi field).get? "enum"
            = some (.arr ((((pySplitNL s).map pyStrip).filter (· ≠ "")).map .str)))
      ∧ ((((pySplitNL s).map pyStrip).filter (· ≠ "")) = [] →
          (map_frappe_field_to_openapi field).get? "enum" = none) := by
  have hft' : field.fieldtype.getD "Data" = "Select" := by rw [hft]; rfl
  have htr : truthy field.options = true := by rw [hopt]; simp [truthy, hne]
  have hlink : ¬ (field.fieldtype.getD "Data" = "Link") := by
    rw [hft']
    decide
  obtain ⟨kvs, hT, he, _⟩ := mapTyped_select field hft
  have hm := map_skip_link field hlink
  rw [selectStage_active field hft' htr, hopt] at hm
  simp only [Option.getD_some] at hm
  by_cases hnil : (((pySplitNL s).map pyStrip).filter (· ≠ "")) = []
  · rw [hnil] at hm
    simp only [List.isEmpty_nil, Bool.not_true, Bool.false_eq_true, if_false] at hm
    refine ⟨?_, ?_, ?_⟩
    · rw [hm, hT]
      exact lookup_setKey_self _ _ _
    · intro hcon
      exact absurd hnil hcon
    · intro _
      rw [hm, hT]
      show lookup (setKey kvs "type" (.str "string")) "enum" = none
      rw [lookup_setKey_ne _ _ _ _ (by decide)]
      exact he
  · cases hopts : (((pySplitNL s).map pyStrip).filter (· ≠ "")) with
    | nil => exact absurd hopts hnil
    | cons a l =>
      rw [hopts] at hm
      simp only [List.isEmpty_cons, Bool.not_false, if_true] at hm
      refine ⟨?_, ?_, ?_⟩
      · rw [hm, hT]
        show lookup (setKey (setKey kvs "type" (.str "string")) "enum"
          (.arr ((a :: l).map .str))) "type" = some (.str "string")
        rw [lookup_setKey_ne _ _ _ _ (by decide)]
        exact lookup_setKey_self _ _ _
      · intro _
        rw [hm, hT]
        show lookup (setKey (setKey kvs "type" (.str "string")) "enum"
          (.arr ((a :: l).map .str))) "enum" = some (.arr ((a :: l).map .str))
        exact lookup_setKey_self _ _ _
      · intro hcon
        cases hcon

/-- Witness for C5: the Select field with options `" A \nB\n C\t"` gets
`enum == ["A", "B", "C"]` and a string type. -/
theorem C5_select_enum_witness :
    (map_frappe_field_to_openapi selectField).get? "type" = some (.str "string")
      ∧ (map_frappe_field_to_openapi selectField).get? "enum"
          = some (.arr [.str "A", .str "B", .str "C"]) := by
  obtain ⟨h1, h2, _⟩ := C5_select_enum selectField " A \nB\n C\t" rfl rfl (by decide)
  refine ⟨h1, ?_⟩
  rw [h2 (by decide)]
  rfl

/-- C8: the field-type mapper is total and never rejects its input — a
fieldtype absent from the fixed type table yields a plain string property
with no enum and no format. -/
theorem C8_unknown_fieldtype (field : Field) (t : String)
    (hft : field.fieldtype = some t) (h : t ∉ field_type_mapping.map Prod.fst) :
    (map_frappe_field_to_openapi field).get? "type" = some (.str "string")
      ∧ (map_frappe_field_to_openapi field).get? "enum" = none
      ∧ (map_frappe_field_to_openapi field).get? "format" = none := by
  have hget : field.fieldtype.getD "Data" = t := by rw [hft]; rfl
  have hsel : ¬ (field.fieldtype.getD "Data" = "Select") := by
    rw [hget]
    intro hh
    exact h (by rw [hh]; decide)
  have hlink : ¬ (field.fieldtype.getD "Data" = "Link") := by
    rw [hget]
    intro hh
    exact h (by rw [hh]; decide)
  obtain ⟨kvs, hT, he, hf⟩ := mapTyped_unknown field t hft h
  have hm : map_frappe_field_to_openapi field = mapTyped field := by
    rw [map_skip_link field hlink, selectStage_skip_of_ne field hsel]
  rw [hm, hT]
  refine ⟨lookup_setKey_self _ _ _, ?_, ?_⟩
  · show lookup (setKey kvs "type" (.str "string")) "enum" = none
    rw [lookup_setKey_ne _ _ _ _ (by decide)]
    exact he
  · show lookup (setKey kvs "type" (.str "string")) "format" = none
    rw [lookup_setKey_ne _ _ _ _ (by decide)]
    exact hf

/-- Witness for C8: the unknown fieldtype `"Frobnicate"` maps to a plain
string property with no enum and no format. -/
theorem C8_unknown_fieldtype_witness :
    (map_frappe_field_to_openapi frobField).get? "type" = some (.str "string")
      ∧ (map_frappe_field_to_openapi frobField).get? "enum" = none
      ∧ (map_frappe_field_to_openapi frobField).get? "format" = none :=
  C8_unknown_fieldtype frobField "Frobnicate" rfl (by decide)

theorem containsIf_eq_memIf (required : List String) (p a b : String) :
    (if required.contains p then a else b) = (if p ∈ required then a else b) := by
  by_cases h : p ∈ required
  · rw [if_pos h, if_pos (List.elem_iff.mpr h)]
  · rw [if_neg h, if_neg (fun hc => h (List.elem_iff.mp hc))]

theorem propLine_eq (required : List String) (p ty : String) :
    propLine required p ty
      = "  " ++ p ++ (if p ∈ required then "" else "?") ++ ": " ++ ty ++ ";" := by
  unfold propLine
  rw [containsIf_eq_memIf]

theorem tsLoop_eq (required : List String) (props : List (String × Json)) :
    ∀ (e0 l0 : List String),
      props.foldl (tsLoopStep required) (e0, l0)
        = (e0 ++ claimEnumBlocks props,
           l0 ++ props.map (fun e => propLine required e.1 (claimTypeToken e))) := by
  induction props with
  | nil =>
    intro e0 l0
    simp [claimEnumBlocks]
  | cons e rest ih =>
    intro e0 l0
    show rest.foldl (tsLoopStep required) (tsLoopStep required (e0, l0) e) = _
    cases he : e.2.get? "enum" with
    | some v =>
      have hstep : tsLoopStep required (e0, l0) e
          = (e0 ++ [enumDecl e.1 v], l0 ++ [propLine required e.1 (capFirst e.1 ++ "Enum")]) := by
        simp [tsLoopStep, he]
      rw [hstep, ih]
      simp [claimEnumBlocks, claimTypeToken, List.filterMap_cons, he, List.append_assoc]
    | none =>
      have hstep : tsLoopStep required (e0, l0) e
          = (e0, l0 ++ [propLine required e.1 (tsPrimType e.2)]) := by
        simp [tsLoopStep, he]
      rw [hstep, ih]
      simp [claimEnumBlocks, claimTypeToken, List.filterMap_cons, he, List.append_assoc]

/-- C7: the emitted interface text is all enum declaration blocks (one per
enum-carrying property, in property order) followed by exactly one interface
block, blocks separated by a blank line; each property line carries the
optional marker `?` iff the property is not required; and with zero
enum-typed properties the output is exactly the interface block. -/
theorem C7_interface_layout (props : List (String × Json)) (req : List String) (iname : String) :
    json_schema_to_typescript_interface
        (.obj [("type", .str "object"), ("properties", .obj props),
               ("required", .arr (req.map .str))]) iname
      = String.intercalate "\n\n" (claimEnumBlocks props ++ [claimInterfaceBlock iname props req])
    ∧ (claimEnumBlocks props = [] →
        json_schema_to_typescript_interface
          (.obj [("type", .str "object"), ("properties", .obj props),
                 ("required", .arr (req.map .str))]) iname
        = claimInterfaceBlock iname props req) := by
  have hmain : json_schema_to_typescript_interface
      (.obj [("type", .str "object"), ("properties", .obj props),
             ("required", .arr (req.map .str))]) iname
      = String.intercalate "\n\n" (claimEnumBlocks props ++ [claimInterfaceBlock iname props req]) := by
    show String.intercalate "\n\n"
        ((props.foldl (tsLoopStep (requiredStrings (.arr (req.map .str))))
            ([], ["export interface " ++ iname ++ " \x7b"])).1
          ++ [String.intercalate "\n"
              ((props.foldl (tsLoopStep (requiredStrings (.arr (req.map .str))))
                  ([], ["export interface " ++ iname ++ " \x7b"])).2 ++ ["\x7d"])])
      = _
    rw [requiredStrings_map_str, tsLoop_eq]
    unfold claimInterfaceBlock
    simp only [List.nil_append, List.cons_append, List.append_assoc, List.singleton_append]
    congr 2
    simp only [propLine_eq]
  refine ⟨hmain, fun hzero => ?_⟩
  rw [hmain, hzero]
  rfl

/-- Witness for C7: a one-property schema with no enum-typed properties is
rendered as exactly the interface block. -/
theorem C7_interface_layout_witness :
    claimEnumBlocks [("age", Json.obj [("type", Json.str "integer")])] = []
      ∧ json_schema_to_typescript_interface
          (.obj [("type", .str "object"),
                 ("properties", .obj [("age", Json.obj [("type", Json.str "integer")])]),
                 ("required", .arr (["age"].map .str))]) "FooSchema"
        = claimInterfaceBlock "FooSchema" [("age", Json.obj [("type", Json.str "integer")])] ["age"] :=
  ⟨rfl, (C7_interface_layout [("age", Json.obj [("type", Json.str "integer")])] ["age"] "FooSchema").2 rfl⟩

theorem collectionPath_ne_itemPath (d : String) : collectionPath d ≠ itemPath d := by
  intro h
  have hlen := congrArg String.length h
  rw [show itemPath d = collectionPath d ++ "/\x7bname\x7d" from rfl, String.length_append] at hlen
  have h7 : ("/\x7bname\x7d" : String).length = 7 := rfl
  omega

theorem add_crud_paths_nil (d : String) :
    add_crud_paths [] d
      = [(collectionPath d, collectionPathItem d), (itemPath d, itemPathItem d)] := by
  unfold add_crud_paths
  show setKey [(collectionPath d, collectionPathItem d)] (itemPath d) (itemPathItem d) = _
  show (if collectionPath d = itemPath d then _ else _) = _
  rw [if_neg (collectionPath_ne_itemPath d)]
  rfl

theorem pathsOf_buildSpecDoc (url : String) (info : Info) (s p : List (String × Json)) :
    pathsOf (buildSpecDoc url info s p) = p := rfl

theorem schemasOf_buildSpecDoc (url : String) (info : Info) (s p : List (String × Json)) :
    schemasOf (buildSpecDoc url info s p) = s := rfl

/-- C6 (counterexample): in the composed document for "Customer", the item
`put` operation does not wrap the schema reference in a `{data: …}` envelope:
its request body schema is the bare `$ref` object (which has no `data` key)
and its 200 response carries no content schema at all. -/
theorem C6_counterexample :
    lookup (pathsOf (generate_openapi_spec sampleMetadataOf ["Customer"] "http://e" {}))
        (itemPath "Customer") = some (itemPathItem "Customer")
      ∧ getPath (itemPathItem "Customer")
          ["put", "requestBody", "content", "application/json", "schema"]
          = some (schemaRef "Customer")
      ∧ (schemaRef "Customer").get? "data" = none
      ∧ getPath (itemPathItem "Customer") ["put", "responses", "200", "content"] = none :=
  ⟨rfl, rfl, rfl, rfl⟩

/-- C6 (amended): for an entity whose schema is non-empty, the composed
document contains exactly the collection path (operations get, post) and the
item path (operations get, put, delete); each item operation takes the
required path parameter `name`; the item get wraps the schema reference in a
`{data: …}` envelope, the put carries the bare reference as request body and
answers 200 with no body schema, and delete answers 202 with no body schema;
and the entity's component schema exists. -/
theorem C6_crud_paths (d url : String) (info : Info) (m : Metadata)
    (M : String → Option Metadata) (hM : M d = some m) (hT : m.truthy = true)
    (hS : (generate_doctype_schema d m).truthy = true) :
    pathsOf (generate_openapi_spec M [d] url info)
        = [(collectionPath d, collectionPathItem d), (itemPath d, itemPathItem d)]
      ∧ lookup (schemasOf (generate_openapi_spec M [d] url info)) d
          = some (generate_doctype_schema d m)
      ∧ objKeys (collectionPathItem d) = ["get", "post"]
      ∧ objKeys (itemPathItem d) = ["get", "put", "delete"]
      ∧ (∀ op ∈ ["get", "put", "delete"],
          getPath (itemPathItem d) [op, "parameters"] = some (.arr [namePathParam]))
      ∧ namePathParam.get? "name" = some (.str "name")
      ∧ namePathParam.get? "in" = some (.str "path")
      ∧ namePathParam.get? "required" = some (.bool true)
      ∧ getPath (itemPathItem d)
          ["get", "responses", "200", "content", "application/json", "schema"]
          = some (dataEnvelope (schemaRef d))
      ∧ getPath (itemPathItem d)
          ["put", "requestBody", "content", "application/json", "schema"]
          = some (schemaRef d)
      ∧ getPath (itemPathItem d) ["put", "responses", "200", "content"] = none
      ∧ getPath (itemPathItem d) ["delete", "responses"]
          = some (.obj [("202", .obj [("description", .str (d ++ " document deleted"))])]) := by
  have hfold : List.foldl (specStep M) ([], []) [d]
      = (setKey [] d (generate_doctype_schema d m), add_crud_paths [] d) := by
    show specStep M ([], []) d = _
    unfold specStep
    rw [hM]
    simp [hT, hS]
  have hdoc : generate_openapi_spec M [d] url info
      = buildSpecDoc url info (setKey [] d (generate_doctype_schema d m)) (add_crud_paths [] d) := by
    unfold generate_openapi_spec
    rw [hfold]
  refine ⟨?_, ?_, rfl, rfl, ?_, rfl, rfl, rfl, rfl, rfl, rfl, rfl⟩
  · rw [hdoc, pathsOf_buildSpecDoc, add_crud_paths_nil]
  · rw [hdoc, schemasOf_buildSpecDoc]
    exact lookup_setKey_self [] d _
  · intro op hop
    simp only [List.mem_cons, List.mem_singleton, List.not_mem_nil, or_false] at hop
    rcases hop with rfl | rfl | rfl <;> rfl

/-- Witness for C6: the composed document for "Customer" with a one-field
metadata envelope contains exactly the two Customer paths and the Customer
component schema. -/
theorem C6_crud_paths_witness :
    pathsOf (generate_openapi_spec sampleMetadataOf ["Customer"] "http://e" {})
        = [(collectionPath "Customer", collectionPathItem "Customer"),
           (itemPath "Customer", itemPathItem "Customer")]
      ∧ lookup (schemasOf (generate_openapi_spec sampleMetadataOf ["Customer"] "http://e" {}))
          "Customer" = some (generate_doctype_schema "Customer" sampleMetadata) := by
  obtain ⟨h1, h2, _⟩ := C6_crud_paths "Customer" "http://e" {} sampleMetadata sampleMetadataOf
    rfl rfl rfl
  exact ⟨h1, h2⟩

theorem mem_collectRefsPairs_setKey (l : List (String × Json)) (k : String) (v : Json)
    (r : String) (h : r ∈ collectRefsPairs (setKey l k v)) :
    r ∈ collectRefsPairs [(k, v)] ∨ r ∈ collectRefsPairs l := by
  induction l with
  | nil => exact Or.inl h
  | cons hd tl ih =>
    obtain ⟨k0, v0⟩ := hd
    rw [show setKey ((k0, v0) :: tl) k v
        = if k0 = k then (k0, v) :: tl else (k0, v0) :: setKey tl k v from rfl] at h
    by_cases h0 : k0 = k
    · rw [if_pos h0] at h
      subst h0
      simp only [collectRefsPairs, List.mem_append] at h ⊢
      rcases h with (h | h) | h
      · exact Or.inl (Or.inl (Or.inl h))
      · exact Or.inl (Or.inl (Or.inr h))
      · exact Or.inr (Or.inr h)
    · rw [if_neg h0] at h
      simp only [collectRefsPairs, List.mem_append] at h ⊢
      rcases h with (h | h) | h
      · exact Or.inr (Or.inl (Or.inl h))
      · exact Or.inr (Or.inl (Or.inr h))
      · rcases ih h with hl | hr
        · simp only [collectRefsPairs, List.mem_append] at hl
          rcases hl with (hl | hl) | hl
          · exact Or.inl (Or.inl (Or.inl hl))
          · exact Or.inl (Or.inl (Or.inr hl))
          · cases hl
        · exact Or.inr (Or.inr hr)

theorem collectRefsPairs_single_ne (p : String) (j : Json) (hp : p ≠ "$ref") :
    collectRefsPairs [(p, j)] = collectRefs j := by
  simp only [collectRefsPairs]
  rw [if_neg hp]
  simp

theorem collectionPath_ne_ref (d : String) : collectionPath d ≠ "$ref" := by
  intro h
  have hlen := congrArg String.length h
  rw [show collectionPath d = "/api/resource/" ++ d from rfl, String.length_append] at hlen
  have h14 : ("/api/resource/" : String).length = 14 := rfl
  have h4 : ("$ref" : String).length = 4 := rfl
  omega

theorem itemPath_ne_ref (d : String) : itemPath d ≠ "$ref" := by
  intro h
  have hlen := congrArg String.length h
  rw [show itemPath d = "/api/resource/" ++ d ++ "/\x7bname\x7d" from rfl,
    String.length_append, String.length_append] at hlen
  have h14 : ("/api/resource/" : String).length = 14 := rfl
  have h7 : ("/\x7bname\x7d" : String).length = 7 := rfl
  have h4 : ("$ref" : String).length = 4 := rfl
  omega

theorem collectRefs_collectionPathItem (d : String) :
    collectRefs (collectionPathItem d)
      = ["#/components/schemas/" ++ d, "#/components/schemas/" ++ d,
         "#/components/schemas/" ++ d] := rfl

theorem collectRefs_itemPathItem (d : String) :
    collectRefs (itemPathItem d)
      = ["#/components/schemas/" ++ d, "#/components/schemas/" ++ d] := rfl

theorem specFold_refs (M : String → Option Metadata) (doctypes : List String) :
    ∀ (acc : List (String × Json) × List (String × Json)),
      (∀ r ∈ collectRefsPairs acc.2,
        ∃ d, lookup acc.1 d ≠ none ∧ r = "#/components/schemas/" ++ d) →
      ∀ r ∈ collectRefsPairs (doctypes.foldl (specStep M) acc).2,
        ∃ d, lookup (doctypes.foldl (specStep M) acc).1 d ≠ none
          ∧ r = "#/components/schemas/" ++ d := by
  induction doctypes with
  | nil =>
    intro acc hacc
    exact hacc
  | cons d rest ih =>
    intro acc hacc
    have hnew : ∀ r ∈ collectRefsPairs (specStep M acc d).2,
        ∃ d', lookup (specStep M acc d).1 d' ≠ none ∧ r = "#/components/schemas/" ++ d' := by
      cases hM : M d with
      | none =>
        have hstep : specStep M acc d = acc := by
          unfold specStep
          rw [hM]
        rw [hstep]
        exact hacc
      | some m =>
        by_cases hT : m.truthy
        · by_cases hS : (generate_doctype_schema d m).truthy
          · have hstep : specStep M acc d
                = (setKey acc.1 d (generate_doctype_schema d m), add_crud_paths acc.2 d) := by
              unfold specStep
              rw [hM]
              simp [hT, hS]
            rw [hstep]
            intro r hr
            unfold add_crud_paths at hr
            rcases mem_collectRefsPairs_setKey _ _ _ _ hr with h1 | h2
            · rw [collectRefsPairs_single_ne _ _ (itemPath_ne_ref d), collectRefs_itemPathItem] at h1
              refine ⟨d, ?_, ?_⟩
              · rw [lookup_setKey_self]
                simp
              · simp only [List.mem_cons, List.not_mem_nil, or_false] at h1
                rcases h1 with rfl | rfl <;> rfl
            · rcases mem_collectRefsPairs_setKey _ _ _ _ h2 with h3 | h4
              · rw [collectRefsPairs_single_ne _ _ (collectionPath_ne_ref d),
                  collectRefs_collectionPathItem] at h3
                refine ⟨d, ?_, ?_⟩
                · rw [lookup_setKey_self]
                  simp
                · simp only [List.mem_cons, List.not_mem_nil, or_false] at h3
                  rcases h3 with rfl | rfl | rfl <;> rfl
              · obtain ⟨d', hd', hr'⟩ := hacc r h4
                refine ⟨d', ?_, hr'⟩
                by_cases hdd : d' = d
                · subst hdd
                  rw [lookup_setKey_self]
                  simp
                · rw [lookup_setKey_ne _ _ _ _ hdd]
                  exact hd'
          · have hstep : specStep M acc d = acc := by
              unfold specStep
              rw [hM]
              simp [hT, hS]
            rw [hstep]
            exact hacc
        · have hstep : specStep M acc d = acc := by
            unfold specStep
            rw [hM]
            simp [hT]
          rw [hstep]
          exact hacc
    exact ih (specStep M acc d) hnew

/-- C9: in every composed document, every schema reference occurring inside
`paths` names an entry present in `components.schemas`. -/
theorem C9_refs_resolve (M : String → Option Metadata) (doctypes : List String)
    (url : String) (info : Info) :
    ∀ r ∈ collectRefsPairs (pathsOf (generate_openapi_spec M doctypes url info)),
      ∃ d, lookup (schemasOf (generate_openapi_spec M doctypes url info)) d ≠ none
        ∧ r = "#/components/schemas/" ++ d := by
  have hp : pathsOf (generate_openapi_spec M doctypes url info)
      = (doctypes.foldl (specStep M) ([], [])).2 := rfl
  have hs : schemasOf (generate_openapi_spec M doctypes url info)
      = (doctypes.foldl (specStep M) ([], [])).1 := rfl
  rw [hp, hs]
  exact specFold_refs M doctypes ([], []) (by intro r hr; cases hr)

/-- Witness for C9: the Customer reference occurring in the sample document's
paths resolves to the Customer entry of its component schemas. -/
theorem C9_refs_resolve_witness :
    ("#/components/schemas/Customer"
        ∈ collectRefsPairs (pathsOf (generate_openapi_spec sampleMetadataOf ["Customer"] "http://e" {})))
      ∧ ∃ d, lookup (schemasOf (generate_openapi_spec sampleMetadataOf ["Customer"] "http://e" {})) d ≠ none
          ∧ "#/components/schemas/Customer" = "#/components/schemas/" ++ d := by
  have hmem : "#/components/schemas/Customer"
      ∈ collectRefsPairs (pathsOf (generate_openapi_spec sampleMetadataOf ["Customer"] "http://e" {})) := by
    decide
  exact ⟨hmem, C9_refs_resolve sampleMetadataOf ["Customer"] "http://e" {} _ hmem⟩

end FrappeIntrospector
